import Mathlib

set_option maxRecDepth 4000

/-!
Verification development for the workers-sentinel ingestion pipeline and
per-project state engine.

The definitions below are a shallow embedding of the TypeScript sources:

* `src/lib/envelope-parser.ts` (fingerprinting half): `normalizeMessage`,
  `simpleHash`, `hashArray`, `getTopFrames`, `formatFrame`,
  `generateFingerprint`, `extractTitle`, `extractCulprit`, `extractMetadata`.
* `src/durable-objects/project-state.ts`: the SQLite tables `issues`,
  `events`, `issue_stats`, `issue_users` are embedded as lists of rows in
  insertion (rowid) order; the handlers `handleIngest`, `handleGetIssues`,
  `handleUpdateIssue`, `handleDeleteIssue` are embedded as state-passing
  functions.
* `src/routes/ingestion.ts`: the per-event ingest loop and the response id.

Modelling conventions:

* JavaScript strings are modelled as Lean `String` (code points; the JS
  functions touched here are only exercised on BMP text, where code points
  and UTF-16 units coincide).
* JavaScript truthiness on optional strings (`x || y`) is `jsOrStr`;
  missing/`undefined` is `Option.none` and `""` is falsy.
* Machine arithmetic in the djb2 hash is `Nat` with explicit `% 2^32`.
* External platform primitives that the code calls but does not define
  (`crypto.subtle` SHA-256 and `Date` hour truncation) are parameters,
  bundled in `JsPrims`.
* Effects of a Durable Object request are explicit state passing. Each
  `sql.exec` is its own statement: when a statement throws (duplicate
  PRIMARY KEY on insert, or `SqlStorageCursor.one()` on an empty result),
  the exception is caught by the `fetch` wrapper in `project-state.ts`,
  which returns a 500 response; statements already executed in the same
  request are not rolled back (Cloudflare only discards writes when an
  exception escapes the event handler, and here it is caught).
-/

/-- Truthiness of an optional JS string: `undefined` and `""` are falsy. -/
def jsTruthyS (a : Option String) : Bool :=
  match a with
  | none => false
  | some s => !s.isEmpty

/-- JS `a || d` for an optional string `a` and a string default `d`. -/
def jsOrStr (a : Option String) (d : String) : String :=
  match a with
  | some s => if s.isEmpty then d else s
  | none => d

/-- JS `a || null` for an optional string: a falsy value collapses to null. -/
def jsOrNull (a : Option String) : Option String :=
  match a with
  | some s => if s.isEmpty then none else some s
  | none => none

/-! ### A tiny regex evaluator

`normalizeMessage` in `envelope-parser.ts` is a chain of
`String.prototype.replace` calls with global regexes. Every one of those
regexes is a flat sequence of word-boundary assertions and character
classes with counted repetition, so we evaluate them with an exact
backtracking matcher over such atom sequences (greedy repetition, later
atoms backtrack first, leftmost match — the ECMAScript semantics for
these patterns). -/

/-- Whitespace characters matched by ECMAScript `\s` (and trimmed by
`String.prototype.trim`). -/
def jsWhitespaceChars : List Char :=
  [' ', '\t', '\n', '\r', '\x0B', '\x0C',
   '\u00A0', '\u1680', '\u2000', '\u2001', '\u2002', '\u2003', '\u2004',
   '\u2005', '\u2006', '\u2007', '\u2008', '\u2009', '\u200A', '\u2028',
   '\u2029', '\u202F', '\u205F', '\u3000', '\uFEFF']

/-- ECMAScript `\s`. -/
def isJsSpace (c : Char) : Bool := jsWhitespaceChars.contains c

/-- ECMAScript word character `[A-Za-z0-9_]` (for `\b`). -/
def isJsWordChar (c : Char) : Bool := c.isAlpha || c.isDigit || c == '_'

/-- Regex atom: a character class with counted repetition `{lo,hi}`
(`hi = none` means unbounded), or a word-boundary assertion `\b`. -/
inductive RegexAtom where
  | cls (p : Char → Bool) (lo : Nat) (hi : Option Nat)
  | boundary

/-- Literal character, as the singleton class `{1,1}`. -/
def litAtom (c : Char) : RegexAtom := .cls (fun ch => ch == c) 1 (some 1)

/-- Word boundary test between the previous character (none at the start)
and the next character (none at the end). -/
def atBoundary (prev next : Option Char) : Bool :=
  (match prev with | some c => isJsWordChar c | none => false)
    != (match next with | some c => isJsWordChar c | none => false)

/-- Previous character once `k` characters of `s` have been consumed. -/
def prevCharAfter (prev : Option Char) (s : List Char) (k : Nat) : Option Char :=
  match (s.take k).getLast? with
  | some c => some c
  | none => prev

/-- Match a sequence of atoms at the start of `s`, returning the number of
characters consumed. Greedy with backtracking: for each class we try the
longest feasible repetition count first. -/
def matchAtoms : List RegexAtom → Option Char → List Char → Option Nat
  | [], _, _ => some 0
  | .boundary :: rest, prev, s =>
      if atBoundary prev s.head? then matchAtoms rest prev s else none
  | .cls p lo hi :: rest, prev, s =>
      let maxRun := (s.takeWhile p).length
      let maxK := match hi with | some h => min maxRun h | none => maxRun
      ((List.range (maxK + 1)).reverse).findSome? (fun k =>
        if lo ≤ k then
          match matchAtoms rest (prevCharAfter prev s k) (s.drop k) with
          | some n => some (k + n)
          | none => none
        else none)

/-- Global replace: scan left to right, replacing each leftmost
non-overlapping match and continuing after it. `skip` counts characters
of an already-replaced match that remain to be consumed (they only
update the previous-character tracking used by `\\b`). -/
def replaceScan (atoms : List RegexAtom) (repl : List Char) :
    Option Char → Nat → List Char → List Char
  | _, _, [] => []
  | _, Nat.succ k, c :: rest => replaceScan atoms repl (some c) k rest
  | prev, 0, c :: rest =>
      match matchAtoms atoms prev (c :: rest) with
      | some (Nat.succ n) => repl ++ replaceScan atoms repl (some c) n rest
      | _ => c :: replaceScan atoms repl (some c) 0 rest

/-- JS `str.replace(regex, repl)` with a global regex made of `atoms`. -/
def jsReplaceAll (atoms : List RegexAtom) (repl : String) (s : String) : String :=
  String.mk (replaceScan atoms repl.toList none 0 s.toList)

/-- Hex digit class `[0-9a-f]` under the `i` flag. -/
def isHexDigit (c : Char) : Bool :=
  c.isDigit || (('a' ≤ c) && (c ≤ 'f')) || (('A' ≤ c) && (c ≤ 'F'))

/-- Regex `[0-9a-f]{8}-[0-9a-f]{4}-[0-9a-f]{4}-[0-9a-f]{4}-[0-9a-f]{12}` (flag i). -/
def uuidAtoms : List RegexAtom :=
  [.cls isHexDigit 8 (some 8), litAtom '-', .cls isHexDigit 4 (some 4), litAtom '-',
   .cls isHexDigit 4 (some 4), litAtom '-', .cls isHexDigit 4 (some 4), litAtom '-',
   .cls isHexDigit 12 (some 12)]

/-- Regex `\b[0-9a-f]{24,}\b` (flag i). -/
def hexIdAtoms : List RegexAtom := [.boundary, .cls isHexDigit 24 none, .boundary]

/-- Regex `\b\d{6,}\b`. -/
def numAtoms : List RegexAtom := [.boundary, .cls Char.isDigit 6 none, .boundary]

/-- Regex `\d{4}-\d{2}-\d{2}[T ]\d{2}:\d{2}:\d{2}`. -/
def tsAtoms : List RegexAtom :=
  [.cls Char.isDigit 4 (some 4), litAtom '-', .cls Char.isDigit 2 (some 2), litAtom '-',
   .cls Char.isDigit 2 (some 2), .cls (fun c => c == 'T' || c == ' ') 1 (some 1),
   .cls Char.isDigit 2 (some 2), litAtom ':', .cls Char.isDigit 2 (some 2), litAtom ':',
   .cls Char.isDigit 2 (some 2)]

/-- Regex `\b\d{1,3}\.\d{1,3}\.\d{1,3}\.\d{1,3}\b`. -/
def ipAtoms : List RegexAtom :=
  [.boundary, .cls Char.isDigit 1 (some 3), litAtom '.', .cls Char.isDigit 1 (some 3),
   litAtom '.', .cls Char.isDigit 1 (some 3), litAtom '.', .cls Char.isDigit 1 (some 3),
   .boundary]

/-- Class `[A-Za-z0-9._%+-]`. -/
def isEmailLocalChar (c : Char) : Bool :=
  c.isAlpha || c.isDigit || c == '.' || c == '_' || c == '%' || c == '+' || c == '-'

/-- Class `[A-Za-z0-9.-]`. -/
def isEmailDomainChar (c : Char) : Bool :=
  c.isAlpha || c.isDigit || c == '.' || c == '-'

/-- Class `[A-Z|a-z]` (the source's class literally includes `|`). -/
def isEmailTldChar (c : Char) : Bool := c.isAlpha || c == '|'

/-- Regex `\b[A-Za-z0-9._%+-]+@[A-Za-z0-9.-]+\.[A-Z|a-z]{2,}\b`. -/
def emailAtoms : List RegexAtom :=
  [.boundary, .cls isEmailLocalChar 1 none, litAtom '@', .cls isEmailDomainChar 1 none,
   litAtom '.', .cls isEmailTldChar 2 none, .boundary]

/-- Regex `\s+`. -/
def wsAtoms : List RegexAtom := [.cls isJsSpace 1 none]

/-- JS `String.prototype.trim`. -/
def jsTrim (s : String) : String :=
  String.mk (((s.toList.dropWhile isJsSpace).reverse.dropWhile isJsSpace).reverse)

/-- Embedding of `normalizeMessage` from `envelope-parser.ts`: replace
UUIDs, long hex runs, long decimal runs, timestamps, IPv4 addresses and
email addresses by placeholders, collapse whitespace, trim, and truncate
to 500 characters. -/
def normalizeMessage (message : String) : String :=
  (jsTrim
    (jsReplaceAll wsAtoms " "
      (jsReplaceAll emailAtoms "<email>"
        (jsReplaceAll ipAtoms "<ip>"
          (jsReplaceAll tsAtoms "<timestamp>"
            (jsReplaceAll numAtoms "<num>"
              (jsReplaceAll hexIdAtoms "<id>"
                (jsReplaceAll uuidAtoms "<uuid>" message)))))))).take 500

/-- One step of the djb2 loop: `hash = (hash * 33) ^ str.charCodeAt(i)`,
where JS `^` operates on 32-bit two's complement; on the unsigned
representative this is multiplication mod `2^32` followed by xor. -/
def hashStep (h : Nat) (c : Char) : Nat :=
  ((h * 33) % 4294967296) ^^^ (c.toNat % 4294967296)

/-- Embedding of `simpleHash` from `envelope-parser.ts` (djb2 over the
code units, printed as `(hash >>> 0).toString(16).padStart(8, '0')`). -/
def simpleHash (str : String) : String :=
  let h := (str.toList.foldl hashStep 5381) % 4294967296
  let ds := Nat.toDigits 16 h
  String.mk (List.replicate (8 - ds.length) '0' ++ ds)

/-- Embedding of `hashArray`: hash of the parts joined with `||`. -/
def hashArray (parts : List String) : String :=
  simpleHash (String.intercalate "||" parts)

/-! ### Event data model

Embedding of the `SentryEvent` shape from `types.ts`, restricted to the
fields the embedded code reads. All fields an SDK may omit are `Option`;
numbers are `Int` (JS number truthiness: `0` is falsy). -/

/-- Embedding of `EventUser`. -/
structure EventUser where
  id : Option String := none
  email : Option String := none
  ip_address : Option String := none
  username : Option String := none
deriving Repr, DecidableEq, Inhabited

/-- Embedding of `StackFrame` (the fields read by the fingerprinter). -/
structure StackFrame where
  filename : Option String := none
  function : Option String := none
  lineno : Option Int := none
  in_app : Option Bool := none
deriving Repr, DecidableEq, Inhabited

/-- Embedding of `Stacktrace`. -/
structure Stacktrace where
  frames : List StackFrame
deriving Repr, DecidableEq, Inhabited

/-- Embedding of `ExceptionValue` (the fields read by the fingerprinter). -/
structure ExceptionValue where
  type : Option String := none
  value : Option String := none
  stacktrace : Option Stacktrace := none
deriving Repr, DecidableEq, Inhabited

/-- Embedding of `ExceptionInterface`. -/
structure ExceptionInterface where
  values : List ExceptionValue
deriving Repr, DecidableEq, Inhabited

/-- Embedding of `SentryEvent`, restricted to the fields read by the
fingerprinter, the shard ingest path and the ingestion route. -/
structure SentryEvent where
  event_id : Option String := none
  timestamp : Option String := none
  platform : Option String := none
  level : Option String := none
  transaction : Option String := none
  release : Option String := none
  environment : Option String := none
  tags : Option (List (String × String)) := none
  user : Option EventUser := none
  exception : Option ExceptionInterface := none
  fingerprint : Option (List String) := none
  message : Option String := none
deriving Repr, DecidableEq, Inhabited

/-! ### Fingerprinter (`envelope-parser.ts`) -/

/-- Embedding of `getTopFrames`: reverse the SDK frame order, prefer the
frames whose `in_app` is not literally `false` (absent counts as in-app),
fall back to all frames, and take the first `count`. -/
def getTopFrames (stacktrace : Option Stacktrace) (count : Nat) : List StackFrame :=
  match stacktrace with
  | none => []
  | some tr =>
      if tr.frames.isEmpty then []
      else
        let frames := tr.frames.reverse
        let inAppFrames := frames.filter (fun f =>
          match f.in_app with
          | some false => false
          | _ => true)
        if 0 < inAppFrames.length then inAppFrames.take count else frames.take count

/-- Embedding of `getTopFrame`. -/
def getTopFrame (stacktrace : Option Stacktrace) : Option StackFrame :=
  (getTopFrames stacktrace 1).head?

/-- Prefix of `s` before the first occurrence of `c` (JS `s.split(c)[0]`). -/
def beforeChar (c : Char) (s : String) : String :=
  String.mk (s.toList.takeWhile (fun ch => ch != c))

/-- Embedding of `formatFrame`: `filename:function:lineno` with absent or
falsy components omitted; the filename is cut at the first `?` or `#`. -/
def formatFrame (frame : StackFrame) : String :=
  let parts : List String :=
    (match frame.filename with
     | some f => if f.isEmpty then [] else [beforeChar '#' (beforeChar '?' f)]
     | none => []) ++
    (match frame.function with
     | some f => if f.isEmpty then [] else [f]
     | none => []) ++
    (match frame.lineno with
     | some n => if n = 0 then [] else [toString n]
     | none => [])
  String.intercalate ":" parts

/-- Parts list hashed by the priority-3 (message) and priority-4
(fallback) branches of `generateFingerprint`. In the fallback,
`[event.event_id].joinный` is modelled by defaulting a missing id to `""`
(JS `join` renders `undefined` as the empty string). -/
def fingerprintPartsMsg (e : SentryEvent) : List String :=
  match e.message with
  | some m => if m.isEmpty then [jsOrStr e.event_id ""] else [jsOrStr e.level "error", normalizeMessage m]
  | none => [jsOrStr e.event_id ""]

/-- Parts list hashed by the priority-2 (exception) branch of
`generateFingerprint`, falling through to the message branch. -/
def fingerprintPartsNoExplicit (e : SentryEvent) : List String :=
  match e.exception with
  | some ex =>
      match ex.values with
      | exc :: _ =>
          jsOrStr exc.type "Error" ::
          normalizeMessage (jsOrStr exc.value "") ::
          (getTopFrames exc.stacktrace 3).map formatFrame
      | [] => fingerprintPartsMsg e
  | none => fingerprintPartsMsg e

/-- Parts list hashed by `generateFingerprint`; the explicit-fingerprint
branch fires when the SDK list is non-empty and contains a token other
than the literal default. -/
def fingerprintParts (e : SentryEvent) : List String :=
  match e.fingerprint with
  | some fps =>
      if 0 < fps.length then
        let nonDefault := fps.filter (fun f => f != "\x7b\x7b default \x7d\x7d")
        if 0 < nonDefault.length then nonDefault else fingerprintPartsNoExplicit e
      else fingerprintPartsNoExplicit e
  | none => fingerprintPartsNoExplicit e

/-- Embedding of `generateFingerprint` from `envelope-parser.ts`: the
source pushes the branch-selected parts into an array and returns
`hashArray(parts)`; here the branch selection is factored into
`fingerprintParts`. -/
def generateFingerprint (e : SentryEvent) : String :=
  hashArray (fingerprintParts e)

/-- Embedding of `extractTitle` for events with no exception value. -/
def extractTitleMsg (e : SentryEvent) : String :=
  match e.message with
  | some m =>
      if m.isEmpty then "Unknown Error"
      else if 128 < m.length then (m.take 125) ++ "..." else m
  | none => "Unknown Error"

/-- Embedding of `extractTitle`. -/
def extractTitle (e : SentryEvent) : String :=
  match e.exception with
  | some ex =>
      match ex.values with
      | exc :: _ =>
          let t := jsOrStr exc.type "Error"
          let v := jsOrStr exc.value ""
          let tv := if 100 < v.length then (v.take 97) ++ "..." else v
          t ++ ": " ++ tv
      | [] => extractTitleMsg e
  | none => extractTitleMsg e

/-- Embedding of the stack-frame half of `extractCulprit`. -/
def extractCulpritFrames (e : SentryEvent) : Option String :=
  match e.exception with
  | some ex =>
      match ex.values with
      | exc :: _ =>
          match getTopFrame exc.stacktrace with
          | some frame =>
              let parts : List String :=
                (match frame.filename with
                 | some f => if f.isEmpty then [] else [f]
                 | none => []) ++
                (match frame.function with
                 | some f => if f.isEmpty || f == "<anonymous>" then [] else ["in " ++ f]
                 | none => []) ++
                (match frame.lineno with
                 | some n => if n = 0 then [] else ["at line " ++ toString n]
                 | none => [])
              if parts.isEmpty then none else some (String.intercalate " " parts)
          | none => none
      | [] => none
  | none => none

/-- Embedding of `extractCulprit`: the transaction name if truthy, else a
top-frame descriptor, else null. -/
def extractCulprit (e : SentryEvent) : Option String :=
  match e.transaction with
  | some t => if t.isEmpty then extractCulpritFrames e else some t
  | none => extractCulpritFrames e

/-- Embedding of `IssueMetadata` from `types.ts`. -/
structure IssueMetadata where
  type : String
  value : String
  filename : Option String := none
  function : Option String := none
deriving Repr, DecidableEq, Inhabited

/-- Embedding of `extractMetadata` for events with no exception value. -/
def extractMetadataMsg (e : SentryEvent) : IssueMetadata :=
  match e.message with
  | some m =>
      if m.isEmpty then { type := "Error", value := "" }
      else { type := "Message", value := m.take 200 }
  | none => { type := "Error", value := "" }

/-- Embedding of `extractMetadata`. -/
def extractMetadata (e : SentryEvent) : IssueMetadata :=
  match e.exception with
  | some ex =>
      match ex.values with
      | exc :: _ =>
          let base : IssueMetadata :=
            { type := jsOrStr exc.type "Error", value := (jsOrStr exc.value "").take 200 }
          match getTopFrame exc.stacktrace with
          | some frame => { base with filename := frame.filename, function := frame.function }
          | none => base
      | [] => extractMetadataMsg e
  | none => extractMetadataMsg e

/-! ### Project Shard (`project-state.ts`)

The four SQLite tables are lists of rows in insertion (rowid) order.
`INSERT` appends, `UPDATE ... WHERE` maps over matching rows, `DELETE ...
WHERE` filters, and a `SELECT` without `ORDER BY` reads in list order.
Foreign keys are enforced by the platform, so `DELETE FROM issues`
cascades to `events`, `issue_stats` and `issue_users`. -/

/-- Row of the `issues` table. The `metadata` column stores
`JSON.stringify` of the extracted metadata; we keep the value itself. -/
structure IssueRow where
  id : String
  fingerprint : String
  title : String
  culprit : Option String
  level : String
  platform : String
  first_seen : String
  last_seen : String
  count : Nat
  user_count : Nat
  status : String
  metadata : IssueMetadata
deriving Repr, DecidableEq, Inhabited

/-- Row of the `events` table. The `data` column stores `JSON.stringify`
of the whole event; we keep the event value itself. -/
structure EventRow where
  id : String
  issue_id : String
  timestamp : String
  received_at : String
  level : String
  platform : Option String
  environment : Option String
  release : Option String
  transaction_name : Option String
  user_id : Option String
  user_email : Option String
  user_ip : Option String
  tags : Option (List (String × String))
  data : SentryEvent
deriving Repr, DecidableEq, Inhabited

/-- Row of the `issue_stats` table (hourly buckets). -/
structure StatRow where
  issue_id : String
  bucket : String
  count : Nat
deriving Repr, DecidableEq, Inhabited

/-- Row of the `issue_users` table. -/
structure IssueUserRow where
  issue_id : String
  user_hash : String
  first_seen : String
  last_seen : String
deriving Repr, DecidableEq, Inhabited

/-- State of one Project Shard (one Durable Object instance). -/
structure ShardState where
  issues : List IssueRow := []
  events : List EventRow := []
  stats : List StatRow := []
  users : List IssueUserRow := []
deriving Repr, DecidableEq, Inhabited

/-- Fresh shard (schema created, all tables empty). -/
def emptyShard : ShardState := {}

/-- External platform primitives used by the shard: the SHA-256 based user
hash (`crypto.subtle.digest` in `hashUserIdentifier`, hex, first 32
chars) and the `Date`-based truncation of a timestamp to its UTC hour
(`getHourBucket`). -/
structure JsPrims where
  sha256hex32 : String → String
  hourBucket : String → String

/-- Embedding of `hashUserIdentifier`: the first truthy of
`user.id || user.email || user.ip_address || user.username`, hashed;
absent identifier gives null. -/
def hashUserIdentifier (prims : JsPrims) (user : Option EventUser) : Option String :=
  match user with
  | none => none
  | some u =>
      let identifier := jsOrStr u.id (jsOrStr u.email (jsOrStr u.ip_address (jsOrStr u.username "")))
      if identifier.isEmpty then none else some (prims.sha256hex32 identifier)

/-- Successful ingest response body `{eventId, issueId}`. -/
structure IngestOk where
  eventId : String
  issueId : String
deriving Repr, DecidableEq, Inhabited

/-- Effect of `UPDATE issues SET last_seen = ?, count = count + 1 WHERE id = ?`. -/
def bumpIssue (issueId now : String) (st : ShardState) : ShardState :=
  { st with issues := st.issues.map (fun i =>
      if i.id == issueId then { i with last_seen := now, count := i.count + 1 } else i) }

/-- Issue row inserted for a previously unseen fingerprint. -/
def newIssueRow (event : SentryEvent) (fp now genIssueId : String) : IssueRow :=
  { id := genIssueId, fingerprint := fp, title := extractTitle event,
    culprit := extractCulprit event, level := jsOrStr event.level "error",
    platform := jsOrStr event.platform "javascript", first_seen := now,
    last_seen := now, count := 1, user_count := 0, status := "unresolved",
    metadata := extractMetadata event }

/-- Event row inserted by `handleIngest`. -/
def eventRowOf (event : SentryEvent) (eventId issueId timestamp now : String) : EventRow :=
  { id := eventId, issue_id := issueId, timestamp := timestamp, received_at := now,
    level := jsOrStr event.level "error", platform := jsOrNull event.platform,
    environment := jsOrNull event.environment, release := jsOrNull event.release,
    transaction_name := jsOrNull event.transaction,
    user_id := jsOrNull (event.user.bind (fun u => u.id)),
    user_email := jsOrNull (event.user.bind (fun u => u.email)),
    user_ip := jsOrNull (event.user.bind (fun u => u.ip_address)),
    tags := event.tags, data := event }

/-- Effect of the `issue_stats` upsert (`ON CONFLICT ... count = count + 1`). -/
def statsAfter (issueId bucket : String) (stats : List StatRow) : List StatRow :=
  if stats.any (fun srow => srow.issue_id == issueId && srow.bucket == bucket) then
    stats.map (fun srow =>
      if srow.issue_id == issueId && srow.bucket == bucket then
        { srow with count := srow.count + 1 }
      else srow)
  else stats ++ [{ issue_id := issueId, bucket := bucket, count := 1 }]

/-- Effect of the unique-user tracking step. The source reads the
`issue_users` row with `SqlStorageCursor.one()`, which throws when the
query returns no rows; the `fetch` wrapper catches the exception and
returns a 500, so the insert/`user_count` branch below it is never
reached. Returns the updated table and whether the step succeeded. -/
def usersAfter (prims : JsPrims) (event : SentryEvent) (issueId now : String)
    (users : List IssueUserRow) : List IssueUserRow × Bool :=
  match hashUserIdentifier prims event.user with
  | none => (users, true)
  | some userHash =>
      if users.any (fun u => u.issue_id == issueId && u.user_hash == userHash) then
        (users.map (fun u =>
          if u.issue_id == issueId && u.user_hash == userHash then
            { u with last_seen := now }
          else u), true)
      else (users, false)

/-- Steps of `handleIngest` after the issue upsert: insert the event row
(throws on a duplicate `event_id`, aborting the remaining steps but
keeping the issue update), bump the hourly bucket, and track the user. -/
def ingestRest (prims : JsPrims) (event : SentryEvent)
    (eventId timestamp now issueId : String) (st1 : ShardState) :
    ShardState × Option IngestOk :=
  if st1.events.any (fun ev => ev.id == eventId) then (st1, none)
  else
    let us := usersAfter prims event issueId now st1.users
    ({ issues := st1.issues,
       events := st1.events ++ [eventRowOf event eventId issueId timestamp now],
       stats := statsAfter issueId (prims.hourBucket timestamp) st1.stats,
       users := us.1 },
     if us.2 then some { eventId := eventId, issueId := issueId } else none)

/-- Embedding of `handleIngest`: resolve ids and timestamp, fingerprint
the event, upsert the issue keyed by fingerprint, then run the remaining
steps. `now` is the wall clock, `genEventId`/`genIssueId` the
`crypto.randomUUID()` draws used when needed. `none` as the second
component is the 500 `internal_error` response of the catch-all. -/
def handleIngest (prims : JsPrims) (st : ShardState) (event : SentryEvent)
    (now genEventId genIssueId : String) : ShardState × Option IngestOk :=
  let eventId := jsOrStr event.event_id genEventId
  let timestamp := jsOrStr event.timestamp now
  let fp := generateFingerprint event
  match st.issues.find? (fun i => i.fingerprint == fp) with
  | some issue =>
      ingestRest prims event eventId timestamp now issue.id (bumpIssue issue.id now st)
  | none =>
      if st.issues.any (fun i => i.id == genIssueId) then (st, none)
      else
        ingestRest prims event eventId timestamp now genIssueId
          { st with issues := st.issues ++ [newIssueRow event fp now genIssueId] }

/-- Outcome of `handleUpdateIssue`. -/
inductive UpdateOutcome where
  | ok (issue : IssueRow)
  | missingIssueId
  | noUpdates
  | internalError
deriving Repr, DecidableEq

/-- Embedding of `handleUpdateIssue`: a truthy `status` is written
verbatim (no validation); the re-read with `one()` throws (500) when the
issue does not exist. The shard ignores any other field of the request. -/
def handleUpdateIssue (st : ShardState) (issueId : String) (status : Option String) :
    ShardState × UpdateOutcome :=
  if issueId.isEmpty then (st, .missingIssueId)
  else if !(jsTruthyS status) then (st, .noUpdates)
  else
    let s := status.getD ""
    let issues2 := st.issues.map (fun i => if i.id == issueId then { i with status := s } else i)
    let st2 := { st with issues := issues2 }
    match issues2.find? (fun i => i.id == issueId) with
    | some row => (st2, .ok row)
    | none => (st2, .internalError)

/-- Embedding of `handleDeleteIssue`: `DELETE FROM issues WHERE id = ?`
with `ON DELETE CASCADE` on events, stats and users. -/
def handleDeleteIssue (st : ShardState) (issueId : String) : ShardState × Bool :=
  if issueId.isEmpty then (st, false)
  else
    ({ issues := st.issues.filter (fun i => !(i.id == issueId)),
       events := st.events.filter (fun ev => !(ev.issue_id == issueId)),
       stats := st.stats.filter (fun srow => !(srow.issue_id == issueId)),
       users := st.users.filter (fun u => !(u.issue_id == issueId)) }, true)

/-! ### Issue listing (`handleGetIssues`) -/

/-- Request body of `handleGetIssues` (as sent by the issues route). -/
structure GetIssuesParams where
  status : Option String := none
  level : Option String := none
  query : Option String := none
  sort : Option String := none
  cursor : Option String := none
  limit : Option Int := none
deriving Repr, DecidableEq, Inhabited

/-- Result of `handleGetIssues`; `nextCursor = none` models the
`undefined` that `JSON.stringify` drops from the response. -/
structure GetIssuesResult where
  issues : List IssueRow
  nextCursor : Option String
  hasMore : Bool
deriving Repr, DecidableEq, Inhabited

/-- JS `Math.min` on two integers. -/
def jsMinInt (a b : Int) : Int := if a ≤ b then a else b

/-- JS `limit || 25` on an optional number (`0` is falsy). -/
def jsOrInt (a : Option Int) (d : Int) : Int :=
  match a with
  | some n => if n == 0 then d else n
  | none => d

/-- Containment of one character list in another. -/
def listContainsSeq (needle : List Char) : List Char → Bool
  | [] => needle.isEmpty
  | c :: rest => needle.isPrefixOf (c :: rest) || listContainsSeq needle rest

/-- SQLite `LIKE '%q%'` (ASCII case-insensitive substring). -/
def likeContains (hay needle : String) : Bool :=
  listContainsSeq needle.toLower.toList hay.toLower.toList

/-- Lexicographic code-point order on character lists; on UTF-8 encoded
text this coincides with SQLite's memcmp ordering of TEXT values. -/
def charListLtB : List Char → List Char → Bool
  | _, [] => false
  | [], _ :: _ => true
  | a :: as, b :: bs =>
      if a.toNat < b.toNat then true
      else if a.toNat == b.toNat then charListLtB as bs
      else false

/-- SQLite `<` on TEXT values. -/
def strLtB (a b : String) : Bool := charListLtB a.toList b.toList

/-- Sort columns embedded for `ORDER BY ${sortField} DESC` and
`${sortField} < ?`. The route interpolates the name into SQL; the model
covers the TEXT timestamp columns, over which cursors compare
lexicographically (other values are outside the model and yield `none`,
standing for the SQL error of an unknown column or a non-TEXT compare). -/
def sortProj (sortField : String) : Option (IssueRow → String) :=
  match sortField with
  | "last_seen" => some (fun i => i.last_seen)
  | "first_seen" => some (fun i => i.first_seen)
  | _ => none

/-- JS property access `issue[sortField]` on the object produced by
`rowToIssue`, whose keys are camelCase (`firstSeen`, `lastSeen`, ...);
string-valued properties only. A name that is not a property of that
object (such as the SQL column names `last_seen` and `first_seen`)
yields `undefined` (`none`). -/
def issueKeyLookup (field : String) (i : IssueRow) : Option String :=
  match field with
  | "id" => some i.id
  | "fingerprint" => some i.fingerprint
  | "title" => some i.title
  | "culprit" => i.culprit
  | "level" => some i.level
  | "platform" => some i.platform
  | "firstSeen" => some i.first_seen
  | "lastSeen" => some i.last_seen
  | "status" => some i.status
  | _ => none

/-- Insert into a descending-sorted list, after any equal keys (stable). -/
def insertDesc (proj : IssueRow → String) (x : IssueRow) : List IssueRow → List IssueRow
  | [] => [x]
  | y :: ys => if strLtB (proj y) (proj x) then x :: y :: ys else y :: insertDesc proj x ys

/-- Stable sort by `proj`, descending (the model's concrete realisation
of `ORDER BY ... DESC`). -/
def sortListDesc (proj : IssueRow → String) (l : List IssueRow) : List IssueRow :=
  l.foldl (fun acc x => insertDesc proj x acc) []

/-- SQLite `LIMIT k`: a negative `k` means no limit. -/
def sqliteLimit {α : Type} (k : Int) (l : List α) : List α :=
  if k < 0 then l else l.take k.toNat

/-- JS `arr.slice(0, e)`: a negative `e` counts from the end. -/
def jsSliceTo {α : Type} (l : List α) (e : Int) : List α :=
  if e < 0 then l.take (l.length - (-e).toNat) else l.take e.toNat

/-- Embedding of `handleGetIssues`: filter by status/level/query and the
keyset cursor, order by the sort field descending, read `pageLimit + 1`
rows, and slice off the probe row. -/
def handleGetIssues (st : ShardState) (p : GetIssuesParams) : Option GetIssuesResult :=
  let sortField := jsOrStr p.sort "last_seen"
  match sortProj sortField with
  | none => none
  | some proj =>
      let pageLimit : Int := jsMinInt (jsOrInt p.limit 25) 100
      let matching := st.issues.filter (fun i =>
        (if jsTruthyS p.status then i.status == p.status.getD "" else true) &&
        (if jsTruthyS p.level then i.level == p.level.getD "" else true) &&
        (if jsTruthyS p.query then
            likeContains i.title (p.query.getD "") ||
            (match i.culprit with
             | some cu => likeContains cu (p.query.getD "")
             | none => false)
          else true) &&
        (if jsTruthyS p.cursor then strLtB (proj i) (p.cursor.getD "") else true))
      let rows := sqliteLimit (pageLimit + 1) (sortListDesc proj matching)
      let hasMore : Bool := pageLimit < (rows.length : Int)
      let issues := jsSliceTo rows pageLimit
      let nextCursor : Option String :=
        if hasMore && !issues.isEmpty then
          match issues.getLast? with
          | some lastIssue => issueKeyLookup sortField lastIssue
          | none => none
        else none
      some { issues := issues, nextCursor := nextCursor, hasMore := hasMore }

/-! ### Ingestion coordinator (`routes/ingestion.ts`)

The route dispatches each extracted event to the shard in order,
collects the successful results, and answers
`{ id: firstResult?.eventId || events[0]?.event_id || null }`. -/

/-- One loop iteration's inputs: the event plus the wall clock and the
`crypto.randomUUID()` draws of its shard call. -/
structure IngestItem where
  event : SentryEvent
  now : String
  genEventId : String
  genIssueId : String
deriving Repr, DecidableEq, Inhabited

/-- Per-event outcomes of the ingest loop, in envelope order. -/
def ingestTrace (prims : JsPrims) : ShardState → List IngestItem → List (Option IngestOk)
  | _, [] => []
  | st, it :: rest =>
      let step := handleIngest prims st it.event it.now it.genEventId it.genIssueId
      step.2 :: ingestTrace prims step.1 rest

/-- Shard state after the whole envelope. -/
def ingestFinal (prims : JsPrims) : ShardState → List IngestItem → ShardState
  | st, [] => st
  | st, it :: rest =>
      ingestFinal prims (handleIngest prims st it.event it.now it.genEventId it.genIssueId).1 rest

/-- JS `a || b || null` on optional strings. -/
def jsOrOptStr (a b : Option String) : Option String :=
  if jsTruthyS a then a else if jsTruthyS b then b else none

/-- Embedding of the response id:
`firstResult?.eventId || events[0]?.event_id || null`. -/
def ingestionResponseId (events : List SentryEvent) (results : List IngestOk) : Option String :=
  jsOrOptStr (results.head?.map (fun r => r.eventId)) (events.head?.bind (fun e => e.event_id))

/-- Embedding of the ingestion handler's tail: when the envelope holds no
events the route answers `{id: null}` early; otherwise it ingests each
event and builds the response id from the collected successes. -/
def handleIngestionId (prims : JsPrims) (st : ShardState) (items : List IngestItem) :
    Option String :=
  let events := items.map (fun it => it.event)
  if events.isEmpty then none
  else ingestionResponseId events ((ingestTrace prims st items).filterMap id)

/-! ### Operation sequences and shard invariants -/

/-- A write operation on a Project Shard (the operations quantified over
by the spec's invariants). -/
inductive ShardOp where
  | ingest (event : SentryEvent) (now genEventId genIssueId : String)
  | updateIssue (issueId : String) (status : Option String)
  | deleteIssue (issueId : String)
deriving Repr, DecidableEq

/-- State transition of one operation (responses discarded). -/
def applyOp (prims : JsPrims) (st : ShardState) : ShardOp → ShardState
  | .ingest e now ge gi => (handleIngest prims st e now ge gi).1
  | .updateIssue i s => (handleUpdateIssue st i s).1
  | .deleteIssue i => (handleDeleteIssue st i).1

/-- Run a sequence of operations. -/
def runOps (prims : JsPrims) (st : ShardState) (ops : List ShardOp) : ShardState :=
  ops.foldl (applyOp prims) st

/-- An ingest is clean in a state when its computed event id is not
already stored (no duplicate-id insert rejection) and its generated
issue id is fresh (the `crypto.randomUUID()` no-collision assumption).
Reads and the other write operations are always clean. -/
def cleanOp (st : ShardState) : ShardOp → Bool
  | .ingest e _ ge gi =>
      st.events.all (fun ev => ev.id != jsOrStr e.event_id ge) &&
      st.issues.all (fun i => i.id != gi)
  | _ => true

/-- Every operation of the sequence is clean in the state it runs in. -/
def cleanRun (prims : JsPrims) (st : ShardState) : List ShardOp → Bool
  | [] => true
  | op :: ops => cleanOp st op && cleanRun prims (applyOp prims st op) ops

/-- Count consistency: each issue's `count` equals its number of event rows. -/
def CountConsistent (st : ShardState) : Prop :=
  ∀ i ∈ st.issues, i.count = (st.events.filter (fun ev => ev.issue_id == i.id)).length

/-- Referential integrity: every event row points at some issue row. -/
def EventsReferenceIssues (st : ShardState) : Prop :=
  ∀ ev ∈ st.events, ∃ i ∈ st.issues, i.id = ev.issue_id

/-- The inductive invariant used for count consistency. -/
def ShardInv (st : ShardState) : Prop :=
  EventsReferenceIssues st ∧ CountConsistent st

instance (st : ShardState) : Decidable (CountConsistent st) := by
  unfold CountConsistent; infer_instance

instance (st : ShardState) : Decidable (EventsReferenceIssues st) := by
  unfold EventsReferenceIssues; infer_instance

/-! ### Spec-side mirror of the fingerprint priority order

The following definitions follow the wording of the specification's
fingerprinting section (grouping priority and frame selection), to be
compared with the source-derived `generateFingerprint`. -/

/-- Spec wording: the fingerprint tokens other than the literal
`{{ default }}`. -/
def specNonDefaultTokens (e : SentryEvent) : List String :=
  (e.fingerprint.getD []).filter (fun t => t != "\x7b\x7b default \x7d\x7d")

/-- Spec wording: the event carries a non-empty list of fingerprint
tokens with at least one token not equal to the literal default. -/
def specHasExplicitFingerprint (e : SentryEvent) : Bool :=
  !(e.fingerprint.getD []).isEmpty && !(specNonDefaultTokens e).isEmpty

/-- Spec wording: the exception value present in the event, if any. -/
def specFirstExceptionValue (e : SentryEvent) : Option ExceptionValue :=
  match e.exception with
  | some ex => ex.values.head?
  | none => none

/-- Spec wording: the top three in-app frames (fallback: top three of any
frames) after reversing the SDK-supplied order. -/
def specTopFrames (stacktrace : Option Stacktrace) : List StackFrame :=
  match stacktrace with
  | none => []
  | some tr =>
      let rev := tr.frames.reverse
      let inApp := rev.filter (fun f =>
        match f.in_app with
        | some false => false
        | _ => true)
      if inApp.isEmpty then rev.take 3 else inApp.take 3

/-- Spec wording of the whole priority order: explicit tokens, else the
exception tuple `[type, normalized message, frames...]` with the type
defaulting to `"Error"`, else `[level or "error", normalized message]`,
else `[event_id]`; each hashed after joining with `||`. -/
def fingerprintSpec (e : SentryEvent) : String :=
  if specHasExplicitFingerprint e then hashArray (specNonDefaultTokens e)
  else
    match specFirstExceptionValue e with
    | some exc =>
        hashArray ([jsOrStr exc.type "Error", normalizeMessage (jsOrStr exc.value "")] ++
          (specTopFrames exc.stacktrace).map formatFrame)
    | none =>
        if jsTruthyS e.message then
          hashArray [jsOrStr e.level "error", normalizeMessage (e.message.getD "")]
        else hashArray [jsOrStr e.event_id ""]

/-- Projection of an issue row to the fields that a matching ingest must
not modify (everything except `last_seen`, `count` and `user_count`). -/
def issueImmutables (i : IssueRow) :
    String × String × String × Option String × String × String × String × String × IssueMetadata :=
  (i.id, i.fingerprint, i.title, i.culprit, i.level, i.platform, i.first_seen, i.status,
   i.metadata)

/-! ### Concrete fixtures used by witnesses and counterexamples -/

/-- Concrete instantiation of the external primitives (any function is
admissible; the claims under test do not constrain them). -/
def idPrims : JsPrims := ⟨fun s => s, fun s => s⟩

/-- A minimal event with a fixed SDK event id and an explicit grouping
token. -/
def evGrpA : SentryEvent := { event_id := some "E1", fingerprint := some ["grpA"] }

/-- A second event with a different grouping token and id. -/
def evGrpB : SentryEvent := { event_id := some "E3", fingerprint := some ["grpB"] }

/-- Event carrying an explicit token next to the literal default marker. -/
def evFp1 : SentryEvent :=
  { event_id := some "W1", fingerprint := some ["db", "\x7b\x7b default \x7d\x7d"] }

/-- A distinct event whose grouping inputs reduce to the same tuple. -/
def evFp2 : SentryEvent :=
  { event_id := some "W2", environment := some "prod", fingerprint := some ["db"] }

/-- Ingesting the same envelope twice: the retry carries the stored id `E1`. -/
def dupTrace : List ShardOp :=
  [.ingest evGrpA "t1" "g1" "i1", .ingest evGrpA "t2" "g2" "i2"]

/-- Shard holding the first copy of `evGrpA`. -/
def stGrpA : ShardState := (handleIngest idPrims emptyShard evGrpA "t1" "g1" "i1").1

/-- The issue row created for `evGrpA`. -/
def grpAIssueRow : IssueRow := newIssueRow evGrpA (generateFingerprint evGrpA) "t1" "i1"

/-- A bare issue row template for listing fixtures. -/
def mkPlainIssue (idv lastSeen : String) : IssueRow :=
  { id := idv, fingerprint := idv, title := "t", culprit := none, level := "error",
    platform := "javascript", first_seen := lastSeen, last_seen := lastSeen, count := 1,
    user_count := 0, status := "unresolved", metadata := { type := "Error", value := "" } }

/-- Two issues with distinct `last_seen` values. -/
def issueOlder : IssueRow := mkPlainIssue "a1" "2024-01-01T00:00:00.000Z"

/-- The fresher of the two listing fixtures. -/
def issueNewer : IssueRow := mkPlainIssue "a2" "2024-01-02T00:00:00.000Z"

/-- Shard with 103 issues (for the negative-limit counterexample). -/
def manyIssues : List IssueRow := (List.range 103).map (fun n => mkPlainIssue (toString n) "t")

/-- Stacktrace with one explicitly non-app frame and one frame without
`in_app`. -/
def mixedTrace : Stacktrace :=
  ⟨[{ filename := some "vendor.js", in_app := some false },
    { filename := some "app.js", lineno := some 42 }]⟩

/-- Envelope items where the first event's id already exists in `stGrpA`
and the second is fresh. -/
def dupThenFresh : List IngestItem :=
  [⟨evGrpA, "t2", "gX", "iX"⟩, ⟨evGrpB, "t3", "E3", "I3"⟩]

/-! ## Theorems -/

theorem getTopFrames_three_eq_spec (st : Option Stacktrace) :
    getTopFrames st 3 = specTopFrames st := by
  cases st with
  | none => rfl
  | some tr =>
    cases htr : tr.frames with
    | nil => simp [getTopFrames, specTopFrames, htr]
    | cons a l =>
      simp only [getTopFrames, specTopFrames, htr, List.isEmpty_cons, Bool.false_eq_true,
        if_false]
      generalize ((a :: l).reverse.filter (fun f =>
        match f.in_app with
        | some false => false
        | _ => true)) = x
      cases x with
      | nil => simp
      | cons b bs => simp

theorem partsMsg_eq_spec (e : SentryEvent) :
    hashArray (fingerprintPartsMsg e) =
      (if jsTruthyS e.message then
        hashArray [jsOrStr e.level "error", normalizeMessage (e.message.getD "")]
      else hashArray [jsOrStr e.event_id ""]) := by
  unfold fingerprintPartsMsg jsTruthyS
  cases e.message with
  | none => simp
  | some m => by_cases hm : m.isEmpty <;> simp [hm]

theorem partsNoExplicit_eq_spec (e : SentryEvent) :
    hashArray (fingerprintPartsNoExplicit e) =
      (match specFirstExceptionValue e with
       | some exc =>
           hashArray ([jsOrStr exc.type "Error", normalizeMessage (jsOrStr exc.value "")] ++
             (specTopFrames exc.stacktrace).map formatFrame)
       | none =>
           if jsTruthyS e.message then
             hashArray [jsOrStr e.level "error", normalizeMessage (e.message.getD "")]
           else hashArray [jsOrStr e.event_id ""]) := by
  unfold fingerprintPartsNoExplicit specFirstExceptionValue
  cases e.exception with
  | none => exact partsMsg_eq_spec e
  | some ex =>
      dsimp only
      cases hv : ex.values with
      | nil => exact partsMsg_eq_spec e
      | cons exc rest =>
          dsimp only [List.head?]
          rw [getTopFrames_three_eq_spec]
          rfl

/-- C5: the fingerprint is computed by the stated priority order —
explicit non-default tokens, else the exception tuple
`[type (default "Error"), normalized message, top frames]`, else
`[level or "error", normalized message]`, else `[event_id]` — where
"present" follows the source's JS truthiness. The source-derived
`generateFingerprint` coincides with the spec-worded `fingerprintSpec`
on every event. -/
theorem fingerprint_priority_order (e : SentryEvent) :
    generateFingerprint e = fingerprintSpec e := by
  unfold generateFingerprint fingerprintSpec fingerprintParts
  cases hfp : e.fingerprint with
  | none =>
      have hhe : specHasExplicitFingerprint e = false := by
        simp [specHasExplicitFingerprint, specNonDefaultTokens, hfp]
      rw [hhe]
      simp only [Bool.false_eq_true, if_false]
      exact partsNoExplicit_eq_spec e
  | some fps =>
      by_cases hlen : 0 < fps.length
      · by_cases hnd : 0 < (fps.filter (fun f => f != "\x7b\x7b default \x7d\x7d")).length
        · have hhe : specHasExplicitFingerprint e = true := by
            simp only [specHasExplicitFingerprint, specNonDefaultTokens, hfp, Option.getD_some]
            rw [Bool.and_eq_true]
            constructor
            · simpa [List.isEmpty_eq_true] using List.length_pos.mp hlen
            · simpa [List.isEmpty_eq_true] using List.length_pos.mp hnd
          rw [hhe]
          simp [hlen, hnd, specNonDefaultTokens, hfp]
        · have hfil : (fps.filter (fun f => f != "\x7b\x7b default \x7d\x7d")) = [] :=
            List.length_eq_zero.mp (Nat.eq_zero_of_not_pos hnd)
          have hhe : specHasExplicitFingerprint e = false := by
            simp [specHasExplicitFingerprint, specNonDefaultTokens, hfp, hfil]
          rw [hhe]
          simp only [Bool.false_eq_true, if_false]
          rw [if_pos hlen, if_neg hnd]
          exact partsNoExplicit_eq_spec e
      · have hfps : fps = [] := by
          cases fps with
          | nil => rfl
          | cons b bs => exact absurd (by simp) hlen
        subst hfps
        have hhe : specHasExplicitFingerprint e = false := by
          simp [specHasExplicitFingerprint, specNonDefaultTokens, hfp]
        rw [hhe]
        simp only [Bool.false_eq_true, if_false]
        simpa using partsNoExplicit_eq_spec e

/-- C6: fingerprinting is a deterministic pure function — the same event
always yields the same fingerprint, and two events whose grouping inputs
reduce to the same normalized parts tuple yield bit-identical
fingerprints. -/
theorem fingerprint_deterministic :
    (∀ e : SentryEvent, generateFingerprint e = generateFingerprint e) ∧
    (∀ e1 e2 : SentryEvent, fingerprintParts e1 = fingerprintParts e2 →
      generateFingerprint e1 = generateFingerprint e2) :=
  ⟨fun _ => rfl, fun e1 e2 h => by unfold generateFingerprint; rw [h]⟩

/-- C6 witness: two distinct concrete events whose grouping inputs reduce
to the same tuple hash bit-identically. -/
theorem fingerprint_deterministic_witness :
    fingerprintParts evFp1 = fingerprintParts evFp2 ∧
      generateFingerprint evFp1 = generateFingerprint evFp2 :=
  ⟨by decide, fingerprint_deterministic.2 evFp1 evFp2 (by decide)⟩

/-- C10: a frame with no `in_app` field counts as in-app: whenever some
frame of the stacktrace lacks `in_app`, `getTopFrames` takes the in-app
branch (the filter keeping every frame not explicitly marked
`in_app: false`), and no returned frame is explicitly non-app. -/
theorem top_frames_absent_in_app (tr : Stacktrace) (count : Nat)
    (h : ∃ f ∈ tr.frames, f.in_app = none) :
    getTopFrames (some tr) count =
      (tr.frames.reverse.filter (fun f =>
        match f.in_app with
        | some false => false
        | _ => true)).take count ∧
    ∀ f ∈ getTopFrames (some tr) count, f.in_app ≠ some false := by
  obtain ⟨f, hf, hfa⟩ := h
  have hne : tr.frames ≠ [] := by
    intro hnil
    rw [hnil] at hf
    exact absurd hf (List.not_mem_nil f)
  have hmemrev : f ∈ tr.frames.reverse := List.mem_reverse.mpr hf
  have hpred : (fun f =>
      match f.in_app with
      | some false => false
      | _ => true) f = true := by
    simp only [hfa]
  have hmemfil : f ∈ tr.frames.reverse.filter (fun f =>
      match f.in_app with
      | some false => false
      | _ => true) := List.mem_filter.mpr ⟨hmemrev, hpred⟩
  have hpos : 0 < (tr.frames.reverse.filter (fun f =>
      match f.in_app with
      | some false => false
      | _ => true)).length := List.length_pos.mpr (List.ne_nil_of_mem hmemfil)
  have hnotempty : tr.frames.isEmpty = false := by
    cases h : tr.frames with
    | nil => exact absurd h hne
    | cons a l => rfl
  have heq : getTopFrames (some tr) count =
      (tr.frames.reverse.filter (fun f =>
        match f.in_app with
        | some false => false
        | _ => true)).take count := by
    simp only [getTopFrames, hnotempty, Bool.false_eq_true, if_false]
    rw [if_pos hpos]
  refine ⟨heq, ?_⟩
  intro g hg
  rw [heq] at hg
  have hgf := List.mem_filter.mp (List.mem_of_mem_take hg)
  intro hbad
  rw [hbad] at hgf
  simpa using hgf.2

/-- C10 witness: a stack with one `in_app: false` frame and one frame
without the field uses the in-app branch. -/
theorem top_frames_absent_in_app_witness :
    (∃ f ∈ mixedTrace.frames, f.in_app = none) ∧
      (getTopFrames (some mixedTrace) 3 =
        (mixedTrace.frames.reverse.filter (fun f =>
          match f.in_app with
          | some false => false
          | _ => true)).take 3 ∧
      ∀ f ∈ getTopFrames (some mixedTrace) 3, f.in_app ≠ some false) :=
  ⟨by decide, top_frames_absent_in_app mixedTrace 3 (by decide)⟩

theorem ingestRest_issues_eq (prims : JsPrims) (event : SentryEvent)
    (eventId timestamp now issueId : String) (st1 : ShardState) :
    (ingestRest prims event eventId timestamp now issueId st1).1.issues = st1.issues := by
  unfold ingestRest
  by_cases hdup : st1.events.any (fun ev => ev.id == eventId) = true
  · simp [hdup]
  · simp [hdup]

theorem bumpIssue_immutables (issueId now : String) (st : ShardState) :
    ((bumpIssue issueId now st).issues).map issueImmutables =
      st.issues.map issueImmutables := by
  unfold bumpIssue
  simp only [List.map_map]
  apply List.map_congr_left
  intro i _
  by_cases h : i.id = issueId <;> simp [h, issueImmutables]

/-- C7: an ingest that matches an existing issue changes at most the
issue's `last_seen`, `count` and `user_count`: its id, fingerprint,
title, culprit, level, platform, `first_seen`, status and metadata are
unchanged — in particular a resolved issue stays resolved. -/
theorem ingest_existing_issue_frame (prims : JsPrims) (st : ShardState)
    (event : SentryEvent) (now genEventId genIssueId : String) (issue : IssueRow)
    (hfind : st.issues.find? (fun i => i.fingerprint == generateFingerprint event) =
      some issue) :
    ((handleIngest prims st event now genEventId genIssueId).1.issues).map issueImmutables =
      st.issues.map issueImmutables := by
  simp only [handleIngest]
  rw [hfind]
  dsimp only
  rw [ingestRest_issues_eq]
  exact bumpIssue_immutables issue.id now st

/-- C7 witness: re-ingesting a matching event (fresh event id) leaves the
issue's immutable fields, including its status, untouched. -/
theorem ingest_existing_issue_frame_witness :
    (stGrpA.issues.find? (fun i => i.fingerprint == generateFingerprint evGrpA) =
      some grpAIssueRow) ∧
    ((handleIngest idPrims stGrpA evGrpA "t2" "g2" "i2").1.issues).map issueImmutables =
      stGrpA.issues.map issueImmutables :=
  ⟨by decide,
   ingest_existing_issue_frame idPrims stGrpA evGrpA "t2" "g2" "i2" grpAIssueRow (by decide)⟩

/-- C3 (code bug): with two issues and `limit = 1` under the default
`last_seen` sort, the shard reports `hasMore = true` but the response
carries no `nextCursor`: the source computes it by reading the SQL
column name `last_seen` off the camelCase `Issue` object produced by
`rowToIssue`, which has only `lastSeen`, so the value is `undefined` and
keyset paging cannot continue. -/
theorem get_issues_next_cursor_undefined :
    (handleGetIssues ⟨[issueOlder, issueNewer], [], [], []⟩ { limit := some 1 }).map
        (fun r => (r.issues, r.hasMore, r.nextCursor)) =
      some ([issueNewer], true, none) := by decide

/-- C4 (code bug): `update_issue` performs no validation of the supplied
status — a request carrying `status = "wontfix"` stores `"wontfix"`,
which lies outside `{unresolved, resolved, ignored}`. -/
theorem update_issue_stores_arbitrary_status :
    ((handleUpdateIssue ⟨[issueOlder], [], [], []⟩ "a1" (some "wontfix")).1.issues.map
        (fun i => i.status) = ["wontfix"]) ∧
      "wontfix" ∉ (["unresolved", "resolved", "ignored"] : List String) := by decide

theorem ingestRest_dup (prims : JsPrims) (event : SentryEvent)
    (eventId timestamp now issueId : String) (st1 : ShardState)
    (hdup : st1.events.any (fun ev => ev.id == eventId) = true) :
    ingestRest prims event eventId timestamp now issueId st1 = (st1, none) := by
  unfold ingestRest
  simp [hdup]

/-- C2 (amended): a retried ingest whose computed event id is already
stored is rejected by the event insert: the shard answers a 500 internal
error — not an idempotent success — and the events, hourly-bucket and
user tables are unchanged (the issue table, however, has already been
updated by the upsert that ran before the insert). -/
theorem duplicate_event_retry_effects (prims : JsPrims) (st : ShardState)
    (event : SentryEvent) (now genEventId genIssueId : String)
    (hdup : st.events.any (fun ev => ev.id == jsOrStr event.event_id genEventId) = true) :
    ((handleIngest prims st event now genEventId genIssueId).2 = none) ∧
    ((handleIngest prims st event now genEventId genIssueId).1.events = st.events) ∧
    ((handleIngest prims st event now genEventId genIssueId).1.stats = st.stats) ∧
    ((handleIngest prims st event now genEventId genIssueId).1.users = st.users) := by
  simp only [handleIngest]
  cases hfind : st.issues.find? (fun i => i.fingerprint == generateFingerprint event) with
  | some issue =>
      dsimp only
      rw [ingestRest_dup prims event _ _ now issue.id (bumpIssue issue.id now st) hdup]
      exact ⟨rfl, rfl, rfl, rfl⟩
  | none =>
      dsimp only
      by_cases hgi : (st.issues.any fun i => i.id == genIssueId) = true
      · simp [hgi]
      · simp only [hgi, Bool.false_eq_true, if_false]
        rw [ingestRest_dup prims event (jsOrStr event.event_id genEventId)
              (jsOrStr event.timestamp now) now genIssueId
              { issues := st.issues ++
                  [newIssueRow event (generateFingerprint event) now genIssueId],
                events := st.events, stats := st.stats, users := st.users } hdup]
        exact ⟨rfl, rfl, rfl, rfl⟩

/-- C2 counterexample: retrying the envelope of the stored event `E1`
is not treated as an idempotent success — the shard responds with a 500
(`none`), and the matching issue's counter has been incremented to 2
although only one event row exists. -/
theorem duplicate_event_retry_counterexample :
    ((handleIngest idPrims stGrpA evGrpA "t2" "g2" "i2").2 = none) ∧
    ((handleIngest idPrims stGrpA evGrpA "t2" "g2" "i2").1.issues.map (fun i => i.count) =
      [2]) ∧
    ((handleIngest idPrims stGrpA evGrpA "t2" "g2" "i2").1.events.length = 1) := by decide

/-- C2 witness: the amended statement applied to the concrete retry. -/
theorem duplicate_event_retry_effects_witness :
    (stGrpA.events.any (fun ev => ev.id == jsOrStr evGrpA.event_id "g2") = true) ∧
    (((handleIngest idPrims stGrpA evGrpA "t2" "g2" "i2").2 = none) ∧
     ((handleIngest idPrims stGrpA evGrpA "t2" "g2" "i2").1.events = stGrpA.events) ∧
     ((handleIngest idPrims stGrpA evGrpA "t2" "g2" "i2").1.stats = stGrpA.stats) ∧
     ((handleIngest idPrims stGrpA evGrpA "t2" "g2" "i2").1.users = stGrpA.users)) :=
  ⟨by decide, duplicate_event_retry_effects idPrims stGrpA evGrpA "t2" "g2" "i2" (by decide)⟩

/-- C9 counterexample: `limit = -2` escapes the 100 cap — with 103 stored
issues, `Math.min(-2 || 25, 100) = -2` makes the SQL `LIMIT -1` read all
rows, and `slice(0, -2)` then returns 101 issues. -/
theorem get_issues_limit_cap_counterexample :
    100 < ((handleGetIssues ⟨manyIssues, [], [], []⟩ { limit := some (-2) }).map
      (fun r => r.issues.length)).getD 0 := by decide

theorem jsSliceTo_length_le {α : Type} (l : List α) (e : Int) (he : 0 ≤ e) :
    (jsSliceTo l e).length ≤ e.toNat := by
  unfold jsSliceTo
  rw [if_neg (by omega)]
  simp only [List.length_take]
  exact Nat.min_le_left _ _

/-- C9 (amended): with no limit, or a limit of 0 (falsy, so the default
applies), at most 25 issues are returned, and for every limit ≥ 1 at
most 100 are returned; the cap does not extend to negative limits, which
bypass it. -/
theorem get_issues_limit_cap_amended (st : ShardState) (p : GetIssuesParams)
    (r : GetIssuesResult) (h : handleGetIssues st p = some r) :
    (p.limit = none → r.issues.length ≤ 25) ∧
    (p.limit = some 0 → r.issues.length ≤ 25) ∧
    (∀ n : Int, p.limit = some n → 1 ≤ n → r.issues.length ≤ 100) := by
  simp only [handleGetIssues] at h
  cases hsp : sortProj (jsOrStr p.sort "last_seen") with
  | none => rw [hsp] at h; exact absurd h (by simp)
  | some proj =>
      rw [hsp] at h
      dsimp only at h
      obtain rfl := (Option.some.inj h).symm
      refine ⟨?_, ?_, ?_⟩
      · intro hl
        have hpl : jsMinInt (jsOrInt p.limit 25) 100 = 25 := by rw [hl]; rfl
        simp only [hpl]
        simpa using jsSliceTo_length_le _ (25 : Int) (by norm_num)
      · intro hl
        have hpl : jsMinInt (jsOrInt p.limit 25) 100 = 25 := by rw [hl]; rfl
        simp only [hpl]
        simpa using jsSliceTo_length_le _ (25 : Int) (by norm_num)
      · intro n hl hn
        have hne : (n == 0) = false := by
          have : n ≠ 0 := by omega
          simpa using this
        have hoi : jsOrInt p.limit 25 = n := by rw [hl]; simp [jsOrInt, hne]
        by_cases h100 : n ≤ 100
        · have hpl : jsMinInt (jsOrInt p.limit 25) 100 = n := by
            rw [hoi]; unfold jsMinInt; rw [if_pos h100]
          simp only [hpl]
          have := jsSliceTo_length_le
            (sortListDesc proj (st.issues.filter (fun i =>
              (if jsTruthyS p.status = true then i.status == p.status.getD "" else true) &&
              (if jsTruthyS p.level = true then i.level == p.level.getD "" else true) &&
              (if jsTruthyS p.query = true then
                  likeContains i.title (p.query.getD "") ||
                  (match i.culprit with
                   | some cu => likeContains cu (p.query.getD "")
                   | none => false)
                else true) &&
              (if jsTruthyS p.cursor = true then strLtB (proj i) (p.cursor.getD "") else true))))
            n (by omega)
          calc (jsSliceTo (sqliteLimit (n + 1) _) n).length
              ≤ n.toNat := jsSliceTo_length_le _ n (by omega)
            _ ≤ 100 := by omega
        · have hpl : jsMinInt (jsOrInt p.limit 25) 100 = 100 := by
            rw [hoi]; unfold jsMinInt; rw [if_neg h100]
          simp only [hpl]
          calc (jsSliceTo (sqliteLimit ((100 : Int) + 1) _) (100 : Int)).length
              ≤ (100 : Int).toNat := jsSliceTo_length_le _ 100 (by norm_num)
            _ ≤ 100 := by norm_num

/-- Listing result for a single stored issue with default parameters. -/
def oneIssueResult : GetIssuesResult :=
  { issues := [issueOlder], nextCursor := none, hasMore := false }

/-- C9 witness: the amended bound applied to a concrete default call. -/
theorem get_issues_limit_cap_amended_witness :
    (handleGetIssues ⟨[issueOlder], [], [], []⟩ {} = some oneIssueResult) ∧
      oneIssueResult.issues.length ≤ 25 :=
  ⟨by decide,
   (get_issues_limit_cap_amended ⟨[issueOlder], [], [], []⟩ {} oneIssueResult (by decide)).1
     rfl⟩

theorem filterMap_id_head_of_first_some {α : Type} :
    ∀ (l : List (Option α)) (k : Nat) (r : α),
      l.get? k = some (some r) → (∀ j, j < k → l.get? j = some none) →
      (l.filterMap id).head? = some r := by
  intro l
  induction l with
  | nil => intro k r hk _; simp at hk
  | cons o t ih =>
      intro k r hk hj
      cases k with
      | zero =>
          simp only [List.get?_cons_zero] at hk
          obtain rfl := Option.some.inj hk
          simp
      | succ k' =>
          have h0 := hj 0 (Nat.succ_pos _)
          simp only [List.get?_cons_zero] at h0
          obtain rfl := Option.some.inj h0
          simp only [List.filterMap_cons, id]
          exact ih k' r (by simpa using hk)
            (fun j hjk => by simpa using hj (j + 1) (Nat.succ_lt_succ hjk))

theorem filterMap_id_nil_of_all_none {α : Type} (l : List (Option α))
    (h : l.all (fun o => o.isNone) = true) : l.filterMap id = [] := by
  induction l with
  | nil => rfl
  | cons o t ih =>
      simp only [List.all_cons, Bool.and_eq_true] at h
      obtain ⟨h1, h2⟩ := h
      cases o with
      | none => simpa using ih h2
      | some a => simp at h1

theorem ingestRest_snd_eventId (prims : JsPrims) (event : SentryEvent)
    (eventId timestamp now issueId : String) (st1 : ShardState) (r : IngestOk)
    (h : (ingestRest prims event eventId timestamp now issueId st1).2 = some r) :
    r.eventId = eventId := by
  simp only [ingestRest] at h
  split at h
  · simp at h
  · dsimp only at h
    split at h
    · obtain rfl := (Option.some.inj h).symm
      rfl
    · simp at h

theorem handleIngest_snd_eventId (prims : JsPrims) (st : ShardState) (e : SentryEvent)
    (now ge gi : String) (r : IngestOk)
    (h : (handleIngest prims st e now ge gi).2 = some r) :
    r.eventId = jsOrStr e.event_id ge := by
  simp only [handleIngest] at h
  cases hfind : st.issues.find? (fun i => i.fingerprint == generateFingerprint e) with
  | some issue =>
      rw [hfind] at h
      dsimp only at h
      exact ingestRest_snd_eventId prims e _ _ now issue.id _ r h
  | none =>
      rw [hfind] at h
      dsimp only at h
      by_cases hgi : (st.issues.any fun i => i.id == gi) = true
      · rw [if_pos hgi] at h; simp at h
      · rw [if_neg hgi] at h
        exact ingestRest_snd_eventId prims e _ _ now gi _ r h

theorem ingestTrace_mem_eventId (prims : JsPrims) :
    ∀ (items : List IngestItem) (st : ShardState) (o : Option IngestOk) (r : IngestOk),
      o ∈ ingestTrace prims st items → o = some r →
      ∃ it ∈ items, r.eventId = jsOrStr it.event.event_id it.genEventId := by
  intro items
  induction items with
  | nil => intro st o r ho _; simp [ingestTrace] at ho
  | cons it rest ih =>
      intro st o r ho hor
      simp only [ingestTrace] at ho
      rcases List.mem_cons.mp ho with h1 | h2
      · refine ⟨it, by simp, ?_⟩
        exact handleIngest_snd_eventId prims st it.event it.now it.genEventId it.genIssueId r
          (by rw [← h1, ← hor])
      · obtain ⟨it', hit', heid⟩ := ih _ o r h2 hor
        exact ⟨it', by simp [hit'], heid⟩

/-- C8: the ingestion response id is the event id returned by the first
per-event shard call that succeeded; if every call failed it is the
incoming event id of the envelope's first event; with no events it is
null. Hypothesis: the `crypto.randomUUID()` draws are non-empty, as
actual UUIDs are. -/
theorem ingestion_response_first_success (prims : JsPrims) (st : ShardState)
    (items : List IngestItem)
    (hgen : ∀ it ∈ items, (jsOrStr it.event.event_id it.genEventId).isEmpty = false) :
    (items = [] → handleIngestionId prims st items = none) ∧
    (∀ it0, items.head? = some it0 →
      (ingestTrace prims st items).all (fun o => o.isNone) = true →
      jsTruthyS it0.event.event_id = true →
      handleIngestionId prims st items = it0.event.event_id) ∧
    (∀ (k : Nat) (r : IngestOk), (ingestTrace prims st items).get? k = some (some r) →
      (∀ j, j < k → (ingestTrace prims st items).get? j = some none) →
      handleIngestionId prims st items = some r.eventId) := by
  refine ⟨?_, ?_, ?_⟩
  · intro h; subst h; rfl
  · intro it0 hhead hall htr
    cases items with
    | nil => simp at hhead
    | cons it rest =>
        obtain rfl : it = it0 := by simpa using hhead
        simp only [handleIngestionId, List.map_cons, List.isEmpty_cons, Bool.false_eq_true,
          if_false]
        rw [filterMap_id_nil_of_all_none _ hall]
        cases hei : it.event.event_id with
        | none => rw [hei] at htr; simp [jsTruthyS] at htr
        | some s =>
            rw [hei] at htr
            simp only [jsTruthyS] at htr
            simp [ingestionResponseId, jsOrOptStr, jsTruthyS, hei, htr]
  · intro k r hk hj
    cases items with
    | nil => simp [ingestTrace] at hk
    | cons it rest =>
        simp only [handleIngestionId, List.map_cons, List.isEmpty_cons, Bool.false_eq_true,
          if_false]
        have hhead := filterMap_id_head_of_first_some _ k r hk hj
        have hmem : some r ∈ ingestTrace prims st (it :: rest) := List.get?_mem hk
        obtain ⟨it', hit', heid⟩ :=
          ingestTrace_mem_eventId prims (it :: rest) st (some r) r hmem rfl
        have hne : r.eventId.isEmpty = false := by rw [heid]; exact hgen it' hit'
        simp [ingestionResponseId, jsOrOptStr, jsTruthyS, hhead, hne]

/-- C8 witness: with the first event a stored duplicate (failed ingest)
and the second fresh, the response id is the second event's id. -/
theorem ingestion_response_first_success_witness :
    (∀ it ∈ dupThenFresh, (jsOrStr it.event.event_id it.genEventId).isEmpty = false) ∧
    ((ingestTrace idPrims stGrpA dupThenFresh).get? 1 = some (some ⟨"E3", "I3"⟩)) ∧
    (∀ j, j < 1 → (ingestTrace idPrims stGrpA dupThenFresh).get? j = some none) ∧
    handleIngestionId idPrims stGrpA dupThenFresh = some "E3" :=
  ⟨by decide, by decide, by decide,
   (ingestion_response_first_success idPrims stGrpA dupThenFresh (by decide)).2.2 1
     ⟨"E3", "I3"⟩ (by decide) (by decide)⟩

theorem bumpIssue_events_eq (issueId now : String) (st : ShardState) :
    (bumpIssue issueId now st).events = st.events := rfl

theorem bumpIssue_issues_eq (issueId now : String) (st : ShardState) :
    (bumpIssue issueId now st).issues = st.issues.map (fun i =>
      if i.id == issueId then { i with last_seen := now, count := i.count + 1 } else i) := rfl

theorem ingestRest_no_dup_state (prims : JsPrims) (event : SentryEvent)
    (eventId timestamp now issueId : String) (st1 : ShardState)
    (h : (st1.events.any fun ev => ev.id == eventId) = false) :
    ((ingestRest prims event eventId timestamp now issueId st1).1.issues = st1.issues) ∧
    ((ingestRest prims event eventId timestamp now issueId st1).1.events =
      st1.events ++ [eventRowOf event eventId issueId timestamp now]) := by
  refine ⟨?_, ?_⟩ <;> simp [ingestRest, h]

theorem refInv_snoc (issues' : List IssueRow) (events : List EventRow) (ev : EventRow)
    (h1 : ∀ ev2 ∈ events, ∃ i ∈ issues', i.id = ev2.issue_id)
    (h2 : ∃ i ∈ issues', i.id = ev.issue_id) :
    ∀ ev2 ∈ events ++ [ev], ∃ i ∈ issues', i.id = ev2.issue_id := by
  intro ev2 hev2
  rcases List.mem_append.mp hev2 with h | h
  · exact h1 ev2 h
  · have hx : ev2 = ev := by simpa using h
    subst hx
    exact h2

theorem countInv_bump (st : ShardState) (issueId now : String) (ev : EventRow)
    (hev : ev.issue_id = issueId) (hcnt : CountConsistent st) :
    ∀ j ∈ st.issues.map (fun i =>
        if i.id == issueId then { i with last_seen := now, count := i.count + 1 } else i),
      j.count = ((st.events ++ [ev]).filter (fun e2 => e2.issue_id == j.id)).length := by
  intro j hj
  obtain ⟨i, hi, rfl⟩ := List.mem_map.mp hj
  rw [List.filter_append]
  by_cases hid : i.id = issueId
  · simp only [hid, beq_self_eq_true, if_true]
    simp only [List.filter_cons, List.filter_nil, hev, hid, beq_self_eq_true, if_true,
      List.length_append, List.length_cons, List.length_nil]
    have := hcnt i hi
    rw [hid] at this
    omega
  · have hbe : (i.id == issueId) = false := by simpa using hid
    simp only [hbe, Bool.false_eq_true, if_false]
    have hevj : (ev.issue_id == i.id) = false := by
      rw [hev]
      simpa using fun hc => hid hc.symm
    simp only [List.filter_cons, List.filter_nil, hevj, Bool.false_eq_true, if_false,
      List.append_nil]
    exact hcnt i hi

theorem countInv_new (st : ShardState) (gi : String) (row : IssueRow) (ev : EventRow)
    (hrid : row.id = gi) (hrcnt : row.count = 1) (hev : ev.issue_id = gi)
    (hfresh : ∀ i ∈ st.issues, i.id ≠ gi)
    (href : EventsReferenceIssues st) (hcnt : CountConsistent st) :
    ∀ j ∈ st.issues ++ [row],
      j.count = ((st.events ++ [ev]).filter (fun e2 => e2.issue_id == j.id)).length := by
  have hnogi : ∀ ev2 ∈ st.events, ev2.issue_id ≠ gi := by
    intro ev2 hev2 hbad
    obtain ⟨i, hi, hid⟩ := href ev2 hev2
    exact hfresh i hi (hid.trans hbad)
  intro j hj
  rw [List.filter_append]
  rcases List.mem_append.mp hj with h | h
  · have hji : j.id ≠ gi := hfresh j h
    have hevj : (ev.issue_id == j.id) = false := by
      rw [hev]
      simpa using fun hc => hji hc.symm
    simp only [List.filter_cons, List.filter_nil, hevj, Bool.false_eq_true, if_false,
      List.append_nil]
    exact hcnt j h
  · have hx : j = row := by simpa using h
    subst hx
    have hold : st.events.filter (fun e2 => e2.issue_id == j.id) = [] := by
      rw [List.filter_eq_nil_iff]
      intro ev2 hev2
      rw [hrid]
      simpa using hnogi ev2 hev2
    have hevj : (ev.issue_id == j.id) = true := by
      rw [hev, hrid]
      simp
    simp only [hold, List.filter_cons, List.filter_nil, hevj, if_true, List.nil_append,
      List.length_cons, List.length_nil, hrcnt]

theorem shardInv_ingest (prims : JsPrims) (st : ShardState) (e : SentryEvent)
    (now ge gi : String) (hinv : ShardInv st)
    (hclean : cleanOp st (ShardOp.ingest e now ge gi) = true) :
    ShardInv (handleIngest prims st e now ge gi).1 := by
  obtain ⟨href, hcnt⟩ := hinv
  simp only [cleanOp, Bool.and_eq_true, List.all_eq_true] at hclean
  obtain ⟨hev0, hiss0⟩ := hclean
  have hev' : ∀ ev ∈ st.events, ev.id ≠ jsOrStr e.event_id ge := by
    intro ev hev
    simpa using hev0 ev hev
  have hiss' : ∀ i ∈ st.issues, i.id ≠ gi := by
    intro i hi
    simpa using hiss0 i hi
  have hevany : (st.events.any fun ev => ev.id == jsOrStr e.event_id ge) = false := by
    rw [List.any_eq_false]
    intro ev hev
    simp [hev' ev hev]
  simp only [handleIngest]
  cases hfind : st.issues.find? (fun i => i.fingerprint == generateFingerprint e) with
  | some issue =>
      dsimp only
      have hissue_mem : issue ∈ st.issues := List.mem_of_find?_eq_some hfind
      obtain ⟨hI, hE⟩ := ingestRest_no_dup_state prims e (jsOrStr e.event_id ge)
        (jsOrStr e.timestamp now) now issue.id (bumpIssue issue.id now st) hevany
      rw [bumpIssue_issues_eq] at hI
      rw [bumpIssue_events_eq] at hE
      constructor
      · intro ev2 hev2
        rw [hE] at hev2
        rw [hI]
        refine refInv_snoc _ st.events _ ?_ ?_ ev2 hev2
        · intro ev3 hev3
          obtain ⟨i, hi, hid⟩ := href ev3 hev3
          refine ⟨if i.id == issue.id then
              { i with last_seen := now, count := i.count + 1 } else i,
            List.mem_map_of_mem _ hi, ?_⟩
          by_cases h : i.id = issue.id
          · simp only [h, beq_self_eq_true, if_true]
            rw [← hid, h]
          · have hbe : (i.id == issue.id) = false := by simpa using h
            simp only [hbe, Bool.false_eq_true, if_false]
            exact hid
        · refine ⟨if issue.id == issue.id then
              { issue with last_seen := now, count := issue.count + 1 } else issue,
            List.mem_map_of_mem _ hissue_mem, ?_⟩
          simp [eventRowOf]
      · intro j hj
        rw [hI] at hj
        rw [hE]
        exact countInv_bump st issue.id now _ rfl hcnt j hj
  | none =>
      dsimp only
      have hany : (st.issues.any fun i => i.id == gi) = false := by
        rw [List.any_eq_false]
        intro i hi
        simp [hiss' i hi]
      simp only [hany, Bool.false_eq_true, if_false]
      obtain ⟨hI, hE⟩ := ingestRest_no_dup_state prims e (jsOrStr e.event_id ge)
        (jsOrStr e.timestamp now) now gi
        { st with issues := st.issues ++ [newIssueRow e (generateFingerprint e) now gi] }
        hevany
      constructor
      · intro ev2 hev2
        rw [hE] at hev2
        rw [hI]
        refine refInv_snoc _ st.events _ ?_ ?_ ev2 hev2
        · intro ev3 hev3
          obtain ⟨i, hi, hid⟩ := href ev3 hev3
          exact ⟨i, List.mem_append_left _ hi, hid⟩
        · exact ⟨newIssueRow e (generateFingerprint e) now gi,
            List.mem_append_right _ (by simp), rfl⟩
      · intro j hj
        rw [hI] at hj
        rw [hE]
        exact countInv_new st gi _ _ rfl rfl rfl hiss' href hcnt j hj

theorem shardInv_update (st : ShardState) (issueId : String) (status : Option String)
    (hinv : ShardInv st) : ShardInv (handleUpdateIssue st issueId status).1 := by
  obtain ⟨href, hcnt⟩ := hinv
  simp only [handleUpdateIssue]
  by_cases h1 : issueId.isEmpty = true
  · simp only [h1, if_true]
    exact ⟨href, hcnt⟩
  · simp only [h1, Bool.false_eq_true, if_false]
    by_cases h2 : jsTruthyS status = true
    · simp only [h2, Bool.not_true, Bool.false_eq_true, if_false]
      have hgoal : ShardInv
          { st with issues := st.issues.map (fun i =>
              if i.id == issueId then { i with status := status.getD "" } else i) } := by
        constructor
        · intro ev hev
          obtain ⟨i, hi, hid⟩ := href ev hev
          refine ⟨if i.id == issueId then { i with status := status.getD "" } else i,
            List.mem_map_of_mem _ hi, ?_⟩
          by_cases h : i.id = issueId
          · simp only [h, beq_self_eq_true, if_true]
            exact h ▸ hid
          · have hbe : (i.id == issueId) = false := by simpa using h
            simp only [hbe, Bool.false_eq_true, if_false]
            exact hid
        · intro j hj
          obtain ⟨i, hi, rfl⟩ := List.mem_map.mp hj
          by_cases h : i.id = issueId
          · simp only [h, beq_self_eq_true, if_true]
            have hc := hcnt i hi
            rw [h] at hc
            exact hc
          · have hbe : (i.id == issueId) = false := by simpa using h
            simp only [hbe, Bool.false_eq_true, if_false]
            exact hcnt i hi
      cases hf : (st.issues.map (fun i =>
          if i.id == issueId then { i with status := status.getD "" } else i)).find?
            (fun i => i.id == issueId) with
      | some row => exact hgoal
      | none => exact hgoal
    · have hf : jsTruthyS status = false := by
        cases hx : jsTruthyS status
        · rfl
        · exact absurd hx h2
      simp only [hf, Bool.not_false, if_true]
      exact ⟨href, hcnt⟩

theorem filter_of_filter_stronger {α : Type} (l : List α) (p q : α → Bool)
    (h : ∀ a, p a = true → q a = true) : (l.filter q).filter p = l.filter p := by
  induction l with
  | nil => rfl
  | cons a t ih =>
      by_cases hq : q a = true
      · by_cases hp : p a = true <;>
          simp only [List.filter_cons, hq, hp, if_true, Bool.false_eq_true, if_false, ih]
      · have hp : p a = false := by
          cases hpa : p a
          · rfl
          · exact absurd (h a hpa) hq
        have hq' : q a = false := by
          cases hqa : q a
          · rfl
          · exact absurd hqa hq
        simp only [List.filter_cons, hq', hp, Bool.false_eq_true, if_false, ih]

theorem shardInv_delete (st : ShardState) (issueId : String) (hinv : ShardInv st) :
    ShardInv (handleDeleteIssue st issueId).1 := by
  obtain ⟨href, hcnt⟩ := hinv
  simp only [handleDeleteIssue]
  by_cases h1 : issueId.isEmpty = true
  · simp only [h1, if_true]
    exact ⟨href, hcnt⟩
  · simp only [h1, Bool.false_eq_true, if_false]
    constructor
    · intro ev hev
      obtain ⟨hev1, hev2⟩ := List.mem_filter.mp hev
      obtain ⟨i, hi, hid⟩ := href ev hev1
      refine ⟨i, List.mem_filter.mpr ⟨hi, ?_⟩, hid⟩
      rw [hid]
      exact hev2
    · intro j hj
      obtain ⟨hj1, hj2⟩ := List.mem_filter.mp hj
      rw [filter_of_filter_stronger]
      · exact hcnt j hj1
      · intro ev2 hpe
        have hje : ev2.issue_id = j.id := by simpa using hpe
        rw [hje]
        exact hj2

theorem shardInv_empty : ShardInv emptyShard := by
  constructor
  · intro ev hev
    simp [emptyShard] at hev
  · intro i hi
    simp [emptyShard] at hi

theorem shardInv_runOps (prims : JsPrims) :
    ∀ (ops : List ShardOp) (st : ShardState), ShardInv st →
      cleanRun prims st ops = true → ShardInv (runOps prims st ops) := by
  intro ops
  induction ops with
  | nil => intro st hinv _; exact hinv
  | cons op rest ih =>
      intro st hinv hcl
      simp only [cleanRun, Bool.and_eq_true] at hcl
      obtain ⟨hc1, hc2⟩ := hcl
      have hstep : ShardInv (applyOp prims st op) := by
        cases op with
        | ingest e now ge gi => exact shardInv_ingest prims st e now ge gi hinv hc1
        | updateIssue i s => exact shardInv_update st i s hinv
        | deleteIssue i => exact shardInv_delete st i hinv
      exact ih (applyOp prims st op) hstep hc2

/-- C1 (amended): after any sequence of ingest, update and delete
operations from a fresh shard in which no ingest hits a duplicate-id
insert rejection (its computed event id is unseen, and the generated
issue id is fresh, as `crypto.randomUUID()` draws are), every issue row
`I` has `I.count` equal to its number of event rows. A duplicate-id
ingest breaks the invariant, because the issue upsert commits before the
event insert throws. -/
theorem count_consistency_clean_ops (prims : JsPrims) (ops : List ShardOp)
    (h : cleanRun prims emptyShard ops = true) :
    CountConsistent (runOps prims emptyShard ops) :=
  (shardInv_runOps prims ops emptyShard shardInv_empty h).2

/-- C1 counterexample: replaying the same envelope (same `event_id`)
leaves the issue's count at 2 with a single stored event row, so the
claimed invariant fails exactly in the partial-failure case it asserts
to cover. -/
theorem count_consistency_counterexample :
    ¬ CountConsistent (runOps idPrims emptyShard dupTrace) := by decide

/-- An operation sequence whose ingests all carry fresh ids. -/
def cleanOpsTrace : List ShardOp :=
  [.ingest evGrpA "t1" "g1" "i1", .updateIssue "i1" (some "resolved"),
   .ingest evGrpB "t2" "g2" "i2",
   .ingest { event_id := some "E5", fingerprint := some ["grpA"] } "t3" "g3" "i3",
   .deleteIssue "i2"]

/-- C1 witness: a concrete clean run of five operations keeps count
consistency. -/
theorem count_consistency_clean_ops_witness :
    (cleanRun idPrims emptyShard cleanOpsTrace = true) ∧
      CountConsistent (runOps idPrims emptyShard cleanOpsTrace) :=
  ⟨by decide, count_consistency_clean_ops idPrims cleanOpsTrace (by decide)⟩
